import Mathlib

-- Verification of the alphacats neural-network trainer (`model/train.py`).
-- The development shallowly embeds the trainer's pure logic:
-- the shape constants, the npz batch loader (`load_data`), the masked
-- softmax policy head of `build_model`, the train/validation split and the
-- fit loop with its `EarlyStopping` / `TerminateOnNaN` callbacks, and the
-- model-export step sequence at the end of `main`.
-- Floating point numbers are modelled as rationals (losses, tensor
-- entries) or reals (the softmax head, which needs `Real.exp`).

set_option maxRecDepth 40000

namespace AlphaCats

-- Constants from train.py lines 34-41.  The comment there says they must
-- be kept in sync with the Go code.

def TF_GRAPH_TAG : String := "serve"

def MAX_HISTORY : ℕ := 58

def N_ACTION_FEATURES : ℕ := 16

def NUM_CARD_TYPES : ℕ := 11

def MAX_CARDS_IN_DRAW_PILE : ℕ := 13

def MAX_INSERT_POSITIONS : ℕ := 8

def N_OUTPUTS : ℕ := 2 * NUM_CARD_TYPES + MAX_INSERT_POSITIONS + 1

-- Splitting a flat array into consecutive rows of length `k`, as
-- `numpy.reshape` does once the total size check has passed.  The fuel
-- argument (instantiated with the list length) makes the recursion
-- structural so that terms reduce by `rfl` / `decide`.

def chunkListAux {α : Type} (k : ℕ) : ℕ → List α → List (List α)
  | _, [] => []
  | 0, _ :: _ => []
  | fuel + 1, x :: t => (x :: t).take k :: chunkListAux k fuel ((x :: t).drop k)

def chunkList {α : Type} (k : ℕ) (xs : List α) : List (List α) :=
  chunkListAux k xs.length xs

-- The only load-time failure in `load_data` is numpy's ValueError when an
-- array's element count does not match the requested reshape; the spec
-- names this error class `ShapeMismatch`.

inductive LoadError : Type
  | ShapeMismatch : LoadError
deriving DecidableEq

-- `numpy.reshape((n, k))`: succeeds exactly when the flat size is `n * k`.

def reshape2 (xs : List ℚ) (n k : ℕ) : Except LoadError (List (List ℚ)) :=
  if xs.length = n * k then Except.ok (chunkList k xs)
  else Except.error LoadError.ShapeMismatch

-- `numpy.reshape((n, a, b))`: succeeds exactly when the flat size is
-- `n * (a * b)`; the result is `n` blocks of `a` rows of width `b`.

def reshape3 (xs : List ℚ) (n a b : ℕ) : Except LoadError (List (List (List ℚ))) :=
  if xs.length = n * (a * b) then Except.ok (chunkList a (chunkList b xs))
  else Except.error LoadError.ShapeMismatch

-- The raw arrays stored in one npz shard (train.py `load_data`, lines
-- 117-129): one flat numeric array per field.

structure RawBatch : Type where
  Xhistory : List ℚ
  Xhands : List ℚ
  Xdrawpile : List ℚ
  XoutputMask : List ℚ
  Ypolicy : List ℚ
  Yvalue : List ℚ
deriving DecidableEq

-- The reshaped tensors returned by `load_data` (the X dict and Y dict).

structure TensorBatch : Type where
  Xhistory : List (List (List ℚ))
  Xhands : List (List ℚ)
  Xdrawpile : List (List (List ℚ))
  XoutputMask : List (List ℚ)
  Ypolicy : List (List ℚ)
  Yvalue : List (List ℚ)
deriving DecidableEq

-- `load_data` (train.py lines 117-129): n_samples = len(Y_value); each
-- stored array is reshaped to its declared per-sample shape, in source
-- order.  A reshape failure (numpy ValueError) aborts the load.

def load_data (b : RawBatch) : Except LoadError TensorBatch :=
  match reshape3 b.Xhistory b.Yvalue.length MAX_HISTORY N_ACTION_FEATURES with
  | Except.error e => Except.error e
  | Except.ok X_history =>
    match reshape2 b.Xhands b.Yvalue.length (3 * NUM_CARD_TYPES) with
    | Except.error e => Except.error e
    | Except.ok X_hands =>
      match reshape3 b.Xdrawpile b.Yvalue.length MAX_CARDS_IN_DRAW_PILE NUM_CARD_TYPES with
      | Except.error e => Except.error e
      | Except.ok X_drawpile =>
        match reshape2 b.XoutputMask b.Yvalue.length N_OUTPUTS with
        | Except.error e => Except.error e
        | Except.ok X_output_mask =>
          match reshape2 b.Ypolicy b.Yvalue.length N_OUTPUTS with
          | Except.error e => Except.error e
          | Except.ok Y_policy =>
            match reshape2 b.Yvalue b.Yvalue.length 1 with
            | Except.error e => Except.error e
            | Except.ok Y_value =>
              Except.ok ⟨X_history, X_hands, X_drawpile, X_output_mask, Y_policy, Y_value⟩

-- Basic facts about `chunkListAux`.

theorem chunkListAux_nil {α : Type} (k fuel : ℕ) :
    chunkListAux (α := α) k fuel [] = [] := by
  cases fuel <;> rfl

theorem chunkListAux_length {α : Type} (k : ℕ) (hk : 0 < k) :
    ∀ (n fuel : ℕ) (xs : List α), xs.length = n * k → n ≤ fuel →
      (chunkListAux k fuel xs).length = n := by
  intro n
  induction n with
  | zero =>
    intro fuel xs hlen _
    have hnil : xs = [] := List.eq_nil_of_length_eq_zero (by simpa using hlen)
    subst hnil
    simp [chunkListAux_nil]
  | succ m ih =>
    intro fuel xs hlen hfuel
    cases fuel with
    | zero => omega
    | succ f =>
      cases xs with
      | nil =>
        have hpos : 0 < (m + 1) * k := Nat.mul_pos (Nat.succ_pos m) hk
        simp at hlen
        omega
      | cons x t =>
        have hdrop : ((x :: t).drop k).length = m * k := by
          rw [List.length_drop, hlen, Nat.succ_mul]
          omega
        have hstep : chunkListAux k (f + 1) (x :: t) =
            (x :: t).take k :: chunkListAux k f ((x :: t).drop k) := rfl
        rw [hstep]
        simp [ih f ((x :: t).drop k) hdrop (Nat.succ_le_succ_iff.mp hfuel)]

theorem chunkListAux_mem_length {α : Type} (k : ℕ) (hk : 0 < k) :
    ∀ (n fuel : ℕ) (xs : List α), xs.length = n * k → n ≤ fuel →
      ∀ r ∈ chunkListAux k fuel xs, r.length = k := by
  intro n
  induction n with
  | zero =>
    intro fuel xs hlen _
    have hnil : xs = [] := List.eq_nil_of_length_eq_zero (by simpa using hlen)
    subst hnil
    simp [chunkListAux_nil]
  | succ m ih =>
    intro fuel xs hlen hfuel
    cases fuel with
    | zero => omega
    | succ f =>
      cases xs with
      | nil =>
        have hpos : 0 < (m + 1) * k := Nat.mul_pos (Nat.succ_pos m) hk
        simp at hlen
        omega
      | cons x t =>
        have hdrop : ((x :: t).drop k).length = m * k := by
          rw [List.length_drop, hlen, Nat.succ_mul]
          omega
        have hstep : chunkListAux k (f + 1) (x :: t) =
            (x :: t).take k :: chunkListAux k f ((x :: t).drop k) := rfl
        rw [hstep]
        intro r hr
        rcases List.mem_cons.mp hr with hhead | htail
        · subst hhead
          have hk_le : k ≤ (x :: t).length := by
            rw [hlen, Nat.succ_mul]
            omega
          simp only [List.length_take]
          exact Nat.min_eq_left (by simpa using hk_le)
        · exact ih f ((x :: t).drop k) hdrop (Nat.succ_le_succ_iff.mp hfuel) r htail

theorem chunkList_length {α : Type} (k n : ℕ) (hk : 0 < k) (xs : List α)
    (h : xs.length = n * k) : (chunkList k xs).length = n := by
  have hfuel : n ≤ xs.length := by
    rw [h]
    calc n = n * 1 := (mul_one n).symm
    _ ≤ n * k := Nat.mul_le_mul_left n hk
  exact chunkListAux_length k hk n xs.length xs h hfuel

theorem chunkList_mem_length {α : Type} (k n : ℕ) (hk : 0 < k) (xs : List α)
    (h : xs.length = n * k) : ∀ r ∈ chunkList k xs, r.length = k := by
  have hfuel : n ≤ xs.length := by
    rw [h]
    calc n = n * 1 := (mul_one n).symm
    _ ≤ n * k := Nat.mul_le_mul_left n hk
  exact chunkListAux_mem_length k hk n xs.length xs h hfuel

-- Characterization of a successful load: every stored array's size must
-- equal n_samples times its per-sample size, and the result is the
-- corresponding chunking.

theorem reshape2_ok_iff (xs : List ℚ) (n k : ℕ) (t : List (List ℚ)) :
    reshape2 xs n k = Except.ok t ↔ xs.length = n * k ∧ t = chunkList k xs := by
  unfold reshape2
  split_ifs with h
  · simp [h, eq_comm]
  · simp [h]

theorem reshape3_ok_iff (xs : List ℚ) (n a b : ℕ) (t : List (List (List ℚ))) :
    reshape3 xs n a b = Except.ok t ↔
      xs.length = n * (a * b) ∧ t = chunkList a (chunkList b xs) := by
  unfold reshape3
  split_ifs with h
  · simp [h, eq_comm]
  · simp [h]

theorem load_data_ok_iff (b : RawBatch) (t : TensorBatch) :
    load_data b = Except.ok t ↔
      b.Xhistory.length = b.Yvalue.length * (MAX_HISTORY * N_ACTION_FEATURES) ∧
      b.Xhands.length = b.Yvalue.length * (3 * NUM_CARD_TYPES) ∧
      b.Xdrawpile.length = b.Yvalue.length * (MAX_CARDS_IN_DRAW_PILE * NUM_CARD_TYPES) ∧
      b.XoutputMask.length = b.Yvalue.length * N_OUTPUTS ∧
      b.Ypolicy.length = b.Yvalue.length * N_OUTPUTS ∧
      t = ⟨chunkList MAX_HISTORY (chunkList N_ACTION_FEATURES b.Xhistory),
           chunkList (3 * NUM_CARD_TYPES) b.Xhands,
           chunkList MAX_CARDS_IN_DRAW_PILE (chunkList NUM_CARD_TYPES b.Xdrawpile),
           chunkList N_OUTPUTS b.XoutputMask,
           chunkList N_OUTPUTS b.Ypolicy,
           chunkList 1 b.Yvalue⟩ := by
  unfold load_data reshape2 reshape3
  have hY : b.Yvalue.length = b.Yvalue.length * 1 := (mul_one _).symm
  split_ifs with h1 h2 h3 h4 h5
  · simp [← hY, TensorBatch.mk.injEq, h1, h2, h3, h4, h5, eq_comm]
  · simp [h1, h2, h3, h4, h5]
  · simp [h1, h2, h3, h4]
  · simp [h1, h2, h3]
  · simp [h1, h2]
  · simp [h1]

-- Claim C7: a raw array whose element count does not divide into the
-- declared per-sample shape makes `load_data` fail (numpy raises rather
-- than truncating).

/-- C7: if any stored input/target array of a batch has an element count
not evenly divisible by its declared per-sample size (e.g. `X_history`
with `n_samples * MAX_HISTORY * N_ACTION_FEATURES - 1` elements), then
`load_data` fails with `ShapeMismatch` instead of silently truncating. -/
theorem load_data_shape_mismatch_error (b : RawBatch)
    (h : ¬ (MAX_HISTORY * N_ACTION_FEATURES ∣ b.Xhistory.length) ∨
         ¬ (3 * NUM_CARD_TYPES ∣ b.Xhands.length) ∨
         ¬ (MAX_CARDS_IN_DRAW_PILE * NUM_CARD_TYPES ∣ b.Xdrawpile.length) ∨
         ¬ (N_OUTPUTS ∣ b.XoutputMask.length) ∨
         ¬ (N_OUTPUTS ∣ b.Ypolicy.length)) :
    load_data b = Except.error LoadError.ShapeMismatch := by
  cases hres : load_data b with
  | ok t =>
    exfalso
    obtain ⟨h1, h2, h3, h4, h5, -⟩ := (load_data_ok_iff b t).mp hres
    rcases h with hh | hh | hh | hh | hh
    · exact hh ⟨b.Yvalue.length, by rw [h1, mul_comm]⟩
    · exact hh ⟨b.Yvalue.length, by rw [h2, mul_comm]⟩
    · exact hh ⟨b.Yvalue.length, by rw [h3, mul_comm]⟩
    · exact hh ⟨b.Yvalue.length, by rw [h4, mul_comm]⟩
    · exact hh ⟨b.Yvalue.length, by rw [h5, mul_comm]⟩
  | error e =>
    cases e
    rfl

-- A concrete bad shard, exactly the spec's scenario: one sample
-- (Y_value has one element) but X_history holds
-- 1 * MAX_HISTORY * N_ACTION_FEATURES - 1 = 927 elements.

def badBatch : RawBatch :=
  ⟨List.replicate 927 0, List.replicate 33 0, List.replicate 143 0,
   List.replicate 31 0, List.replicate 31 0, [0]⟩

/-- C7 witness: loading the 927-element `X_history` shard fails. -/
theorem load_data_shape_mismatch_error_witness :
    load_data badBatch = Except.error LoadError.ShapeMismatch :=
  load_data_shape_mismatch_error badBatch (Or.inl (by decide))

-- Claim C8: all tensors returned by a successful load share the same
-- leading dimension n_samples = len(Y_value).

/-- C8: whenever `load_data` succeeds, every input and target tensor has
leading dimension equal to `len(Y_value)`, the sample count. -/
theorem load_data_uniform_leading_dim (b : RawBatch) (t : TensorBatch)
    (h : load_data b = Except.ok t) :
    t.Xhistory.length = b.Yvalue.length ∧
    t.Xhands.length = b.Yvalue.length ∧
    t.Xdrawpile.length = b.Yvalue.length ∧
    t.XoutputMask.length = b.Yvalue.length ∧
    t.Ypolicy.length = b.Yvalue.length ∧
    t.Yvalue.length = b.Yvalue.length := by
  obtain ⟨h1, h2, h3, h4, h5, rfl⟩ := (load_data_ok_iff b t).mp h
  refine ⟨?_, ?_, ?_, ?_, ?_, ?_⟩
  · have hinner : (chunkList N_ACTION_FEATURES b.Xhistory).length =
        b.Yvalue.length * MAX_HISTORY :=
      chunkList_length _ _ (by decide) _ (by rw [h1]; ring)
    exact chunkList_length _ _ (by decide) _ hinner
  · exact chunkList_length _ _ (by decide) _ h2
  · have hinner : (chunkList NUM_CARD_TYPES b.Xdrawpile).length =
        b.Yvalue.length * MAX_CARDS_IN_DRAW_PILE :=
      chunkList_length _ _ (by decide) _ (by rw [h3]; ring)
    exact chunkList_length _ _ (by decide) _ hinner
  · exact chunkList_length _ _ (by decide) _ h4
  · exact chunkList_length _ _ (by decide) _ h5
  · exact chunkList_length _ _ (by decide) _ (by rw [mul_one])

-- A concrete well-formed one-sample shard and its loaded tensors.

def goodBatch : RawBatch :=
  ⟨List.replicate 928 0, List.replicate 33 0, List.replicate 143 0,
   List.replicate 31 0, List.replicate 31 0, [0]⟩

def goodTensor : TensorBatch :=
  ⟨chunkList MAX_HISTORY (chunkList N_ACTION_FEATURES goodBatch.Xhistory),
   chunkList (3 * NUM_CARD_TYPES) goodBatch.Xhands,
   chunkList MAX_CARDS_IN_DRAW_PILE (chunkList NUM_CARD_TYPES goodBatch.Xdrawpile),
   chunkList N_OUTPUTS goodBatch.XoutputMask,
   chunkList N_OUTPUTS goodBatch.Ypolicy,
   chunkList 1 goodBatch.Yvalue⟩

theorem load_data_good : load_data goodBatch = Except.ok goodTensor := by
  rw [load_data_ok_iff]
  refine ⟨?_, ?_, ?_, ?_, ?_, rfl⟩ <;>
    simp only [goodBatch, List.length_replicate, List.length_cons,
      List.length_nil] <;> decide

/-- C8 witness: on the concrete one-sample shard all six tensors have
leading dimension 1 = len(Y_value). -/
theorem load_data_uniform_leading_dim_witness :
    goodTensor.Xhistory.length = goodBatch.Yvalue.length ∧
    goodTensor.Xhands.length = goodBatch.Yvalue.length ∧
    goodTensor.Xdrawpile.length = goodBatch.Yvalue.length ∧
    goodTensor.XoutputMask.length = goodBatch.Yvalue.length ∧
    goodTensor.Ypolicy.length = goodBatch.Yvalue.length ∧
    goodTensor.Yvalue.length = goodBatch.Yvalue.length :=
  load_data_uniform_leading_dim goodBatch goodTensor load_data_good

-- The policy head of `build_model` (train.py lines 87-90):
--   policy_hidden_1 = Dense(policy_shape, activation='linear')(relu_4)
--   policy_masked   = Multiply()([policy_hidden_1, output_mask_input])
--   policy_output   = Softmax(name='policy')(policy_masked)
-- i.e. the raw scores are multiplied elementwise by the 0/1 legality mask
-- and the product vector is then fed through a standard softmax.

noncomputable def softmax (l : List ℝ) : List ℝ :=
  l.map (fun x => Real.exp x / (l.map Real.exp).sum)

def applyOutputMask (raw mask : List ℝ) : List ℝ :=
  List.zipWith (fun a b => a * b) raw mask

noncomputable def maskedPolicy (raw mask : List ℝ) : List ℝ :=
  softmax (applyOutputMask raw mask)

theorem applyOutputMask_zero (l : List ℝ) (n : ℕ) :
    applyOutputMask (List.replicate n 0) l = List.replicate (min n l.length) 0 := by
  unfold applyOutputMask
  induction l generalizing n with
  | nil => simp
  | cons x t ih =>
    cases n with
    | zero => simp
    | succ m =>
      simp only [List.replicate_succ, List.zipWith_cons_cons, zero_mul,
        List.length_cons, Nat.succ_min_succ]
      rw [ih]

theorem softmax_replicate_zero (n : ℕ) :
    softmax (List.replicate n (0:ℝ)) = List.replicate n (1 / (n:ℝ)) := by
  unfold softmax
  simp [List.map_replicate, Real.exp_zero, List.sum_replicate, nsmul_eq_mul]

theorem getD_replicate {α : Type} (a d : α) :
    ∀ (n m : ℕ), m < n → (List.replicate n a).getD m d = a := by
  intro n
  induction n with
  | zero => intro m hm; exact absurd hm (Nat.not_lt_zero m)
  | succ k ih =>
    intro m hm
    cases m with
    | zero => rfl
    | succ m' => exact ih m' (Nat.lt_of_succ_lt_succ hm)

theorem getD_zero_mem {α : Type} (l : List α) (d : α) (h : 0 < l.length) :
    l.getD 0 d ∈ l := by
  cases l with
  | nil => simp at h
  | cons x t => simp [List.getD]

-- Claim C1.  The legality mask is applied by elementwise multiplication
-- BEFORE the softmax, so a masked-out raw score becomes 0, and the
-- softmax then assigns it weight exp 0 = 1.  Hence illegal actions
-- receive strictly positive probability and the legal mass is below 1.
-- Concrete input: all raw scores 0, mask legal only at index 0.

def rawC1 : List ℝ := List.replicate 31 0

def maskC1 : List ℝ := 1 :: List.replicate 30 0

/-- C1: counterexample to masked normalization.  With raw scores all 0 and
only action 0 legal, the policy head emits probability 1/31 at the
illegal index 1 (not 0) and probability 1/31 at the single legal index
(so the legal mass is 1/31, not 1): `Softmax(Multiply(raw, mask))` leaks
mass to masked-out actions because a zeroed score still has weight
exp 0 = 1. -/
theorem policy_mask_gives_illegal_action_positive_mass :
    maskC1.getD 1 0 = 0 ∧
    (maskedPolicy rawC1 maskC1).getD 1 0 = 1 / 31 ∧
    (maskedPolicy rawC1 maskC1).getD 0 0 = 1 / 31 ∧
    ((1:ℝ) / 31 ≠ 0) ∧ ((1:ℝ) / 31 ≠ 1) := by
  have hmask : applyOutputMask rawC1 maskC1 = List.replicate 31 0 := by
    rw [rawC1, applyOutputMask_zero]
    norm_num [maskC1]
  have hpol : maskedPolicy rawC1 maskC1 = List.replicate 31 (1 / 31) := by
    unfold maskedPolicy
    rw [hmask, softmax_replicate_zero]
    norm_num
  refine ⟨?_, ?_, ?_, by norm_num, by norm_num⟩
  · show (List.replicate 30 (0:ℝ)).getD 0 0 = 0
    exact getD_replicate 0 0 30 0 (by norm_num)
  · rw [hpol]; exact getD_replicate _ 0 31 1 (by norm_num)
  · rw [hpol]; exact getD_replicate _ 0 31 0 (by norm_num)

-- Claim C9: the discrete action-space width N_OUTPUTS = 31 is used for
-- the output mask, the policy target, and (via the shape probe in `main`,
-- y["policy"][0].shape[0] feeding Dense(policy_shape)) for the policy
-- head's raw score layer; mask and head widths stay equal through the
-- Multiply and Softmax layers.

def main_policy_shape (t : TensorBatch) : ℕ := (t.Ypolicy.getD 0 []).length

/-- C9: `N_OUTPUTS = 2 * NUM_CARD_TYPES + MAX_INSERT_POSITIONS + 1 = 31`,
every loaded `X_output_mask` row and `Y_policy` row has this width, the
policy shape probed by `main` from a nonempty batch equals it, and the
masked policy head maps equal-width score/mask vectors to a policy of the
same width. -/
theorem n_outputs_consistent :
    N_OUTPUTS = 2 * NUM_CARD_TYPES + MAX_INSERT_POSITIONS + 1 ∧
    N_OUTPUTS = 31 ∧
    (∀ (b : RawBatch) (t : TensorBatch), load_data b = Except.ok t →
      (∀ r ∈ t.XoutputMask, r.length = N_OUTPUTS) ∧
      (∀ r ∈ t.Ypolicy, r.length = N_OUTPUTS) ∧
      (0 < t.Ypolicy.length → main_policy_shape t = N_OUTPUTS)) ∧
    (∀ raw mask : List ℝ, raw.length = N_OUTPUTS → mask.length = N_OUTPUTS →
      (maskedPolicy raw mask).length = N_OUTPUTS) := by
  refine ⟨rfl, by decide, ?_, ?_⟩
  · intro b t h
    obtain ⟨h1, h2, h3, h4, h5, rfl⟩ := (load_data_ok_iff b t).mp h
    refine ⟨chunkList_mem_length _ _ (by decide) _ h4,
            chunkList_mem_length _ _ (by decide) _ h5, ?_⟩
    intro hpos
    exact chunkList_mem_length _ _ (by decide) _ h5 _ (getD_zero_mem _ _ hpos)
  · intro raw mask hr hm
    unfold maskedPolicy softmax applyOutputMask
    simp [List.length_zipWith, hr, hm]

/-- C9 witness: on the concrete one-sample shard, the mask row, the policy
target row, the probed policy shape and the policy head width are all 31. -/
theorem n_outputs_consistent_witness :
    (goodTensor.XoutputMask.getD 0 []).length = N_OUTPUTS ∧
    (goodTensor.Ypolicy.getD 0 []).length = N_OUTPUTS ∧
    main_policy_shape goodTensor = N_OUTPUTS ∧
    (maskedPolicy rawC1 maskC1).length = N_OUTPUTS := by
  obtain ⟨-, -, hload, hlen⟩ := n_outputs_consistent
  obtain ⟨hmask, hpol, hshape⟩ := hload goodBatch goodTensor load_data_good
  refine ⟨hmask _ (getD_zero_mem _ _ (by decide)),
          hpol _ (getD_zero_mem _ _ (by decide)),
          hshape (by decide),
          hlen rawC1 maskC1 (by simp [rawC1]; decide) (by simp [maskC1]; decide)⟩

-- Train/validation split.  `main` calls `model.fit(..., validation_split=0.1)`
-- (train.py line 168).  tf.keras `Model.fit` implements `validation_split`
-- by computing `split_at = int(n_samples * (1 - validation_split))` and
-- slicing every array: samples `[0, split_at)` train, samples
-- `[split_at, n)` validate — the validation partition is the SUFFIX of
-- the data, not a prefix.

def fit_validation_split {α : Type} (f : ℚ) (xs : List α) : List α × List α :=
  let splitAt := (⌊(xs.length : ℚ) * (1 - f)⌋).toNat
  (xs.take splitAt, xs.drop splitAt)

def l10 : List ℕ := [0, 1, 2, 3, 4, 5, 6, 7, 8, 9]

/-- C2 counterexample: on ten units with fraction 1/10, the claim predicts
the validation partition is the first `floor(1/10 * 10) = 1` units, i.e.
`[0]`; the fit split actually holds out the last unit `[9]`. -/
theorem fit_validation_split_suffix_cex :
    (fit_validation_split (1 / 10) l10).2 = [9] ∧
    l10.take (⌊(l10.length : ℚ) * (1 / 10)⌋).toNat = [0] ∧
    ([9] : List ℕ) ≠ [0] := by
  have hs : (⌊(l10.length : ℚ) * (1 - 1 / 10)⌋).toNat = 9 := by
    norm_num [l10]
    rfl
  have ht : (⌊(l10.length : ℚ) * (1 / 10)⌋).toNat = 1 := by
    norm_num [l10]
  refine ⟨?_, ?_, by decide⟩
  · show l10.drop (⌊(l10.length : ℚ) * (1 - 1 / 10)⌋).toNat = [9]
    rw [hs]
    decide
  · rw [ht]
    decide

/-- C2 amended: for `0 ≤ f ≤ 1` the fit split is deterministic, disjoint
and exhaustive, with the TRAINING partition the prefix of the first
`floor((1 - f) * N)` units and the VALIDATION partition the remaining
suffix of `N - floor((1 - f) * N)` units. -/
theorem fit_validation_split_partition {α : Type} (f : ℚ) (xs : List α)
    (h0 : 0 ≤ f) (h1 : f ≤ 1) :
    (fit_validation_split f xs).1 ++ (fit_validation_split f xs).2 = xs ∧
    (fit_validation_split f xs).1 = xs.take (⌊(xs.length : ℚ) * (1 - f)⌋).toNat ∧
    (fit_validation_split f xs).2 = xs.drop (⌊(xs.length : ℚ) * (1 - f)⌋).toNat ∧
    (fit_validation_split f xs).1.length = (⌊(xs.length : ℚ) * (1 - f)⌋).toNat ∧
    (fit_validation_split f xs).2.length =
      xs.length - (⌊(xs.length : ℚ) * (1 - f)⌋).toNat := by
  have hle : (⌊(xs.length : ℚ) * (1 - f)⌋).toNat ≤ xs.length := by
    have hx : (xs.length : ℚ) * (1 - f) ≤ (xs.length : ℚ) :=
      mul_le_of_le_one_right (Nat.cast_nonneg xs.length) (sub_le_self 1 h0)
    have hfl : ⌊(xs.length : ℚ) * (1 - f)⌋ ≤ (xs.length : ℤ) := by
      calc ⌊(xs.length : ℚ) * (1 - f)⌋ ≤ ⌊(xs.length : ℚ)⌋ := Int.floor_le_floor hx
      _ = (xs.length : ℤ) := Int.floor_natCast _
    exact Int.toNat_le.mpr hfl
  refine ⟨List.take_append_drop _ _, rfl, rfl, ?_, List.length_drop _ _⟩
  simp [fit_validation_split, List.length_take, Nat.min_eq_left hle]

/-- C2 witness: the amended partition facts at `f = 1/10` on ten units. -/
theorem fit_validation_split_partition_witness :
    (fit_validation_split (1 / 10) l10).1 ++ (fit_validation_split (1 / 10) l10).2 = l10 ∧
    (fit_validation_split (1 / 10) l10).1 =
      l10.take (⌊(l10.length : ℚ) * (1 - 1 / 10)⌋).toNat ∧
    (fit_validation_split (1 / 10) l10).2 =
      l10.drop (⌊(l10.length : ℚ) * (1 - 1 / 10)⌋).toNat ∧
    (fit_validation_split (1 / 10) l10).1.length =
      (⌊(l10.length : ℚ) * (1 - 1 / 10)⌋).toNat ∧
    (fit_validation_split (1 / 10) l10).2.length =
      l10.length - (⌊(l10.length : ℚ) * (1 - 1 / 10)⌋).toNat :=
  fit_validation_split_partition (1 / 10) l10 (by norm_num) (by norm_num)

-- The CLI contract (train.py lines 136-137): `--validation_split` is
-- parsed with default 0.1 ... but the call to `model.fit` on line 168
-- passes the literal `validation_split=0.1`, not `args.validation_split`.

def default_validation_split : ℚ := 1 / 10

def parsed_validation_split (cli : Option ℚ) : ℚ :=
  cli.getD default_validation_split

def fit_validation_split_value : ℚ := 1 / 10

def main_validation_data {α : Type} (_cli : Option ℚ) (xs : List α) : List α :=
  (fit_validation_split fit_validation_split_value xs).2

/-- C3: the `--validation_split` argument is parsed (default 0.1) but then
ignored: `model.fit` always receives the literal 0.1, so passing 0.5 still
holds out only the 0.1 split — the validation data `main` produces does
not depend on the argument and differs from the split the argument
requests. -/
theorem validation_split_argument_ignored :
    parsed_validation_split (some (1 / 2)) = 1 / 2 ∧
    fit_validation_split_value = 1 / 10 ∧
    parsed_validation_split (some (1 / 2)) ≠ fit_validation_split_value ∧
    main_validation_data (some (1 / 2)) l10 = main_validation_data none l10 ∧
    main_validation_data (some (1 / 2)) l10 ≠
      (fit_validation_split (parsed_validation_split (some (1 / 2))) l10).2 := by
  have hs : (⌊(l10.length : ℚ) * (1 - fit_validation_split_value)⌋).toNat = 9 := by
    norm_num [l10, fit_validation_split_value]
    rfl
  have hh : (⌊(l10.length : ℚ) * (1 - parsed_validation_split (some (1 / 2)))⌋).toNat = 5 := by
    norm_num [l10, parsed_validation_split]
    rfl
  have e1 : main_validation_data (some (1 / 2)) l10 = [9] := by
    show l10.drop (⌊(l10.length : ℚ) * (1 - fit_validation_split_value)⌋).toNat = [9]
    rw [hs]
    decide
  have e2 : (fit_validation_split (parsed_validation_split (some (1 / 2))) l10).2 =
      [5, 6, 7, 8, 9] := by
    show l10.drop (⌊(l10.length : ℚ) * (1 - parsed_validation_split (some (1 / 2)))⌋).toNat =
      [5, 6, 7, 8, 9]
    rw [hh]
    decide
  refine ⟨rfl, rfl, ?_, rfl, ?_⟩
  · show (1 : ℚ) / 2 ≠ 1 / 10
    norm_num
  · rw [e1, e2]
    decide

-- The fit loop (train.py lines 164-175): `model.fit(..., epochs=50,
-- callbacks=[EarlyStopping(monitor='val_loss', min_delta=0.0001,
-- patience=5, restore_best_weights=True), TerminateOnNaN()])`.
-- Losses are rationals extended with a NaN value.  TerminateOnNaN checks
-- the training loss batch by batch and stops the run inside the epoch
-- whose training loss goes NaN, before that epoch's early-stopping
-- bookkeeping, keeping the then-current weights.  EarlyStopping tracks
-- the smallest validation loss seen; an epoch improves iff its validation
-- loss is finite and below best - min_delta (numpy comparisons against
-- NaN are false, so a NaN validation loss never improves and never halts
-- by itself); after `patience` consecutive non-improving epochs it stops
-- and, because restore_best_weights=True, restores the weights recorded
-- at the best epoch.  Epochs are 0-based; `epochsRun` counts executed
-- epochs, so stopping at epoch e gives epochsRun = e + 1.

inductive FLoss : Type
  | nan : FLoss
  | fin : ℚ → FLoss
deriving DecidableEq

structure EpochResult (P : Type) : Type where
  params : P
  trainLoss : FLoss
  valLoss : FLoss
deriving DecidableEq

structure ESState (P : Type) : Type where
  best : Option ℚ
  bestW : Option P
  bestEpoch : ℕ
  wait : ℕ
deriving DecidableEq

def min_delta : ℚ := 1 / 10000

def patience : ℕ := 5

def max_epochs : ℕ := 50

def flossVal : FLoss → Option ℚ
  | FLoss.nan => none
  | FLoss.fin q => some q

def improvesB (best : Option ℚ) : FLoss → Bool
  | FLoss.nan => false
  | FLoss.fin q =>
    match best with
    | none => true
    | some b => decide (q < b - min_delta)

theorem fin_ne_nan (q : ℚ) : FLoss.fin q ≠ FLoss.nan :=
  fun h => FLoss.noConfusion h

theorem fin_eq_nan_iff_false (q : ℚ) : (FLoss.fin q = FLoss.nan) = False := by
  simp only [eq_iff_iff, iff_false]
  exact fin_ne_nan q

inductive StopReason : Type
  | earlyStop : StopReason
  | nanStop : StopReason
  | exhausted : StopReason
deriving DecidableEq

structure FitOutcome (P : Type) : Type where
  reason : StopReason
  epochsRun : ℕ
  finalParams : P
  esState : ESState P
deriving DecidableEq

def esInit {P : Type} : ESState P := ⟨none, none, 0, 0⟩

def fitAux {P : Type} (stream : ℕ → EpochResult P) :
    ℕ → ℕ → P → ESState P → FitOutcome P
  | 0, e, cur, st => ⟨StopReason.exhausted, e, cur, st⟩
  | fuel + 1, e, _cur, st =>
    if (stream e).trainLoss = FLoss.nan then
      ⟨StopReason.nanStop, e + 1, (stream e).params, st⟩
    else if improvesB st.best (stream e).valLoss then
      fitAux stream fuel (e + 1) (stream e).params
        ⟨flossVal (stream e).valLoss, some (stream e).params, e, 0⟩
    else if patience ≤ st.wait + 1 then
      ⟨StopReason.earlyStop, e + 1, st.bestW.getD (stream e).params,
        ⟨st.best, st.bestW, st.bestEpoch, st.wait + 1⟩⟩
    else
      fitAux stream fuel (e + 1) (stream e).params
        ⟨st.best, st.bestW, st.bestEpoch, st.wait + 1⟩

def fit {P : Type} (stream : ℕ → EpochResult P) (p0 : P) : FitOutcome P :=
  fitAux stream max_epochs 0 p0 esInit

-- Early-stopping window: from a state whose best weights w were recorded
-- at epoch B and whose wait counter is patience - k, k further epochs
-- with finite training loss and no min_delta improvement over the best b
-- make the run stop with the best weights restored.

theorem esWindow {P : Type} (stream : ℕ → EpochResult P) (b : ℚ) (w : P) (B : ℕ) :
    ∀ (k : ℕ), 0 < k → k ≤ patience →
      ∀ (fuel e : ℕ) (cur : P), k ≤ fuel →
        (∀ j, j < k → (stream (e + j)).trainLoss ≠ FLoss.nan ∧
          improvesB (some b) (stream (e + j)).valLoss = false) →
        fitAux stream fuel e cur ⟨some b, some w, B, patience - k⟩ =
          ⟨StopReason.earlyStop, e + k, w, ⟨some b, some w, B, patience⟩⟩ := by
  have hpat : patience = 5 := rfl
  intro k
  induction k with
  | zero => intro h0; exact absurd h0 (lt_irrefl 0)
  | succ m ih =>
    intro _ hk fuel e cur hfuel hwin
    cases fuel with
    | zero => omega
    | succ f =>
      obtain ⟨hnan, himp⟩ := hwin 0 (Nat.succ_pos m)
      rw [Nat.add_zero] at hnan himp
      cases m with
      | zero =>
        have hw : patience - 1 + 1 = patience := by omega
        simp [fitAux, hnan, himp, hw]
      | succ m' =>
        have hw : patience - (m' + 2) + 1 = patience - (m' + 1) := by omega
        have hlt : ¬ (patience ≤ patience - (m' + 1)) := by omega
        have hrec := ih (Nat.succ_pos m') (by omega) f (e + 1) (stream e).params (by omega)
          (fun j hj => by
            have hj2 := hwin (j + 1) (by omega)
            rwa [show e + (j + 1) = e + 1 + j from by omega] at hj2)
        have harith : e + 1 + (m' + 1) = e + (m' + 2) := by omega
        calc fitAux stream (f + 1) e cur ⟨some b, some w, B, patience - (m' + 2)⟩
            = fitAux stream f (e + 1) (stream e).params
                ⟨some b, some w, B, patience - (m' + 1)⟩ := by
              simp [fitAux, hnan, himp, hlt, hw]
          _ = ⟨StopReason.earlyStop, e + 1 + (m' + 1), w,
                ⟨some b, some w, B, patience⟩⟩ := hrec
          _ = ⟨StopReason.earlyStop, e + (m' + 2), w,
                ⟨some b, some w, B, patience⟩⟩ := by rw [harith]

/-- C4: if the trainer has just recorded its best validation loss b and
best weights w at epoch B (wait counter 0) and the next `patience` epochs
all have finite training loss and validation losses that fail to improve
on b by at least min_delta, then the run stops at epoch B + patience
(epochsRun = B + 1 + patience, 0-based epochs) and the returned
parameters are w, the best epoch's weights, not the final epoch's. -/
theorem early_stopping_stops_at_best_plus_patience {P : Type}
    (stream : ℕ → EpochResult P) (fuel B : ℕ) (cur : P) (b : ℚ) (w : P)
    (hfuel : patience ≤ fuel)
    (hplateau : ∀ j, j < patience →
      (stream (B + 1 + j)).trainLoss ≠ FLoss.nan ∧
      improvesB (some b) (stream (B + 1 + j)).valLoss = false) :
    fitAux stream fuel (B + 1) cur ⟨some b, some w, B, 0⟩ =
      ⟨StopReason.earlyStop, B + 1 + patience, w, ⟨some b, some w, B, patience⟩⟩ := by
  have h := esWindow stream b w B patience (by decide) le_rfl fuel (B + 1) cur hfuel hplateau
  simpa [Nat.sub_self] using h

def constStream : ℕ → EpochResult ℕ := fun n => ⟨n, FLoss.fin 1, FLoss.fin 1⟩

/-- C4 witness: constant validation loss 1 after a best epoch 0 with
weights 0: the run stops after patience = 5 more epochs (epochsRun
0 + 1 + 5 = 6) and returns the best epoch's weights 0, not the current
epoch's weights. -/
theorem early_stopping_stops_at_best_plus_patience_witness :
    fitAux constStream 49 (0 + 1) 77 ⟨some 1, some 0, 0, 0⟩ =
      ⟨StopReason.earlyStop, 0 + 1 + patience, 0, ⟨some 1, some 0, 0, patience⟩⟩ := by
  have hplateau : ∀ j, j < patience →
      (constStream (0 + 1 + j)).trainLoss ≠ FLoss.nan ∧
      improvesB (some 1) (constStream (0 + 1 + j)).valLoss = false := by
    intro j hj
    constructor
    · simp only [constStream]
      exact fin_ne_nan 1
    · norm_num [constStream, improvesB, min_delta, decide_eq_false_iff_not]
  exact early_stopping_stops_at_best_plus_patience constStream 49 0 77 1 0
    (by decide) hplateau

-- Streams for the divergence behavior: `nanStream` has a NaN training
-- loss from epoch 1 on; `valNanStream` has a NaN validation loss at
-- epoch 1 only, with finite training losses throughout.

def nanStream : ℕ → EpochResult ℕ := fun n =>
  if n = 0 then ⟨0, FLoss.fin 1, FLoss.fin 1⟩ else ⟨n, FLoss.nan, FLoss.fin 1⟩

def valNanStream : ℕ → EpochResult ℕ := fun n =>
  ⟨n, FLoss.fin 1, if n = 1 then FLoss.nan else FLoss.fin 1⟩

set_option maxHeartbeats 4000000 in
/-- C5: counterexample.  With epoch parameters equal to the epoch index,
a NaN training loss at epoch 1 halts the run at epoch 1 but keeps that
epoch's parameters 1, not the preceding valid epoch's parameters 0 —
`TerminateOnNaN` performs no rollback.  Moreover a NaN validation loss
at epoch 1 does not halt the run at that epoch: the run continues to
epoch 5 (epochsRun 6, early stop), not epochsRun 2. -/
theorem nan_no_rollback_cex :
    (fit nanStream 42).reason = StopReason.nanStop ∧
    (fit nanStream 42).epochsRun = 2 ∧
    (fit nanStream 42).finalParams = 1 ∧
    (nanStream 0).params = 0 ∧ (1 : ℕ) ≠ 0 ∧
    (fit valNanStream 42).epochsRun = 6 ∧ (6 : ℕ) ≠ 2 := by
  have h1 : fit nanStream 42 = ⟨StopReason.nanStop, 2, 1, ⟨some 1, some 0, 0, 0⟩⟩ := by
    norm_num [fit, fitAux, nanStream, esInit, improvesB, flossVal, min_delta,
      max_epochs, patience, fin_eq_nan_iff_false]
  have h2 : fit valNanStream 42 = ⟨StopReason.earlyStop, 6, 0, ⟨some 1, some 0, 0, 5⟩⟩ := by
    norm_num [fit, fitAux, valNanStream, esInit, improvesB, flossVal, min_delta,
      max_epochs, patience, fin_eq_nan_iff_false]
  rw [h1, h2]
  norm_num [nanStream]

/-- C5 amended: when an epoch's training loss is NaN, the run halts at
that epoch without retrying and the retained parameters are that epoch's
current parameters (no rollback to the previous finite-loss epoch; a NaN
validation loss alone does not halt the epoch). -/
theorem nan_halts_with_current_params {P : Type} (stream : ℕ → EpochResult P)
    (fuel e : ℕ) (cur : P) (st : ESState P)
    (hnan : (stream e).trainLoss = FLoss.nan) :
    fitAux stream (fuel + 1) e cur st =
      ⟨StopReason.nanStop, e + 1, (stream e).params, st⟩ := by
  simp [fitAux, hnan]

/-- C5 amended witness: the NaN training loss at epoch 1 halts with that
epoch's parameters. -/
theorem nan_halts_with_current_params_witness :
    fitAux nanStream 49 1 0 ⟨some 1, some 0, 0, 0⟩ =
      ⟨StopReason.nanStop, 2, 1, ⟨some 1, some 0, 0, 0⟩⟩ := by
  have h := nan_halts_with_current_params nanStream 48 1 0 ⟨some 1, some 0, 0, 0⟩
    (by simp [nanStream])
  simpa [nanStream] using h

-- Claim C10: the epoch loop is bounded by epochs=50.

theorem fitAux_epochs_bound {P : Type} (stream : ℕ → EpochResult P) :
    ∀ (fuel e : ℕ) (cur : P) (st : ESState P),
      (fitAux stream fuel e cur st).epochsRun ≤ e + fuel ∧
      ((fitAux stream fuel e cur st).reason = StopReason.exhausted →
        (fitAux stream fuel e cur st).epochsRun = e + fuel) := by
  intro fuel
  induction fuel with
  | zero =>
    intro e cur st
    constructor
    · show e ≤ e + 0
      omega
    · intro _
      show e = e + 0
      omega
  | succ f ih =>
    intro e cur st
    by_cases hnan : (stream e).trainLoss = FLoss.nan
    · have hstep : fitAux stream (f + 1) e cur st =
          ⟨StopReason.nanStop, e + 1, (stream e).params, st⟩ := by
        simp [fitAux, hnan]
      rw [hstep]
      constructor
      · show e + 1 ≤ e + (f + 1)
        omega
      · intro hex
        simp at hex
    · cases himp : improvesB st.best (stream e).valLoss with
      | true =>
        have hstep : fitAux stream (f + 1) e cur st =
            fitAux stream f (e + 1) (stream e).params
              ⟨flossVal (stream e).valLoss, some (stream e).params, e, 0⟩ := by
          simp [fitAux, hnan, himp]
        rw [hstep]
        have h := ih (e + 1) (stream e).params
          ⟨flossVal (stream e).valLoss, some (stream e).params, e, 0⟩
        constructor
        · have := h.1
          omega
        · intro hex
          have := h.2 hex
          omega
      | false =>
        by_cases hpat : patience ≤ st.wait + 1
        · have hstep : fitAux stream (f + 1) e cur st =
              ⟨StopReason.earlyStop, e + 1, st.bestW.getD (stream e).params,
                ⟨st.best, st.bestW, st.bestEpoch, st.wait + 1⟩⟩ := by
            simp [fitAux, hnan, himp, hpat]
          rw [hstep]
          constructor
          · show e + 1 ≤ e + (f + 1)
            omega
          · intro hex
            simp at hex
        · have hstep : fitAux stream (f + 1) e cur st =
              fitAux stream f (e + 1) (stream e).params
                ⟨st.best, st.bestW, st.bestEpoch, st.wait + 1⟩ := by
            simp [fitAux, hnan, himp, hpat]
          rw [hstep]
          have h := ih (e + 1) (stream e).params
            ⟨st.best, st.bestW, st.bestEpoch, st.wait + 1⟩
          constructor
          · have := h.1
            omega
          · intro hex
            have := h.2 hex
            omega

/-- C10: every training run executes at most max_epochs = 50 epochs, and
a run whose outcome is Exhausted (neither early stopping nor the NaN
abort fired) executed exactly 50 epochs. -/
theorem fit_runs_at_most_max_epochs {P : Type} (stream : ℕ → EpochResult P) (p0 : P) :
    (fit stream p0).epochsRun ≤ max_epochs ∧
    ((fit stream p0).reason = StopReason.exhausted →
      (fit stream p0).epochsRun = max_epochs) := by
  have h := fitAux_epochs_bound stream max_epochs 0 p0 esInit
  constructor
  · have h1 := h.1
    simpa [fit] using h1
  · intro hex
    have h2 := h.2 (by simpa [fit] using hex)
    simpa [fit] using h2

def decStream : ℕ → EpochResult ℕ := fun n => ⟨n, FLoss.fin 0, FLoss.fin (-(n : ℚ))⟩

set_option maxHeartbeats 16000000 in
/-- C10 witness: with validation losses that keep improving, the run is
Exhausted after exactly 50 epochs. -/
theorem fit_runs_at_most_max_epochs_witness :
    (fit decStream 0).reason = StopReason.exhausted ∧
    (fit decStream 0).epochsRun = max_epochs := by
  have hfit : fit decStream 0 =
      ⟨StopReason.exhausted, 50, 49, ⟨some (-(49 : ℚ)), some 49, 49, 0⟩⟩ := by
    norm_num [fit, fitAux, decStream, esInit, improvesB, flossVal, min_delta,
      max_epochs, patience, fin_eq_nan_iff_false]
  refine ⟨by rw [hfit], (fit_runs_at_most_max_epochs decStream 0).2 (by rw [hfit])⟩

-- Export (train.py lines 177-186).  `main` deletes any existing output
-- directory with shutil.rmtree, then writes the serving artifact with
-- model.save (the SavedModel carrying the TF_GRAPH_TAG tag that the Go
-- serving runtime loads by name) and then the raw weights file
-- weights.h5 with model.save_weights — all in place at the destination,
-- with no write-then-rename.  A destination state records what is
-- present at the output path; each step transforms it.

structure DestState : Type where
  oldContent : Bool
  servingArtifact : Bool
  weightsFile : Bool
deriving DecidableEq

inductive ExportStep : Type
  | clearDest : ExportStep
  | saveModel : ExportStep
  | saveWeights : ExportStep
deriving DecidableEq

def applyExportStep : DestState → ExportStep → DestState
  | _, ExportStep.clearDest => ⟨false, false, false⟩
  | s, ExportStep.saveModel => ⟨s.oldContent, true, s.weightsFile⟩
  | s, ExportStep.saveWeights => ⟨s.oldContent, s.servingArtifact, true⟩

def exportSteps : List ExportStep :=
  [ExportStep.clearDest, ExportStep.saveModel, ExportStep.saveWeights]

def runExport (s : DestState) (steps : List ExportStep) : DestState :=
  steps.foldl applyExportStep s

def initialDest : DestState := ⟨true, false, false⟩

/-- C6: counterexample to atomic export.  If the export fails after
model.save but before model.save_weights (the first two of the three
steps ran), the destination holds the serving-tagged artifact while the
raw-weights part of the artifact is missing: a partially-written
destination that carries the complete-serving tag, which the claimed
write-then-rename discipline would never expose. -/
theorem export_tagged_incomplete_cex :
    (runExport initialDest (exportSteps.take 2)).servingArtifact = true ∧
    (runExport initialDest (exportSteps.take 2)).weightsFile = false := by
  decide

/-- C6 amended: the export is not atomic; it clears the destination and
writes in place.  The destination trajectory is: old content present,
then everything deleted, then the serving-tagged model without weights,
and only after the final step the complete artifact. -/
theorem export_overwrites_in_place :
    runExport initialDest (exportSteps.take 0) = ⟨true, false, false⟩ ∧
    runExport initialDest (exportSteps.take 1) = ⟨false, false, false⟩ ∧
    runExport initialDest exportSteps = ⟨false, true, true⟩ := by
  decide

end AlphaCats
